import Mathlib

/-!
Verification of `rez/bind/_utils.py` (bind-module utilities): a shallow
embedding of its pure logic, with the filesystem, the configuration object
and the subprocess layer modelled as explicit parameters.

Strings are modelled as `List Char`; a captured subprocess run as a
`CommandResult`; raised Python exceptions as `Except` errors.  The `Version`
and `VersionRange` types come from `rez.vendor.version`, which is not part of
this repository snapshot, so they are modelled from the spec (see their doc
comments).
-/

/-! ## Python string primitives -/

/-- Characters `str.strip()` / `str.split()` treat as whitespace
(the ASCII whitespace of Python: space, tab, newline, CR, VT, FF). -/
def pyIsSpace (c : Char) : Bool :=
  c == ' ' || c == '\t' || c == '\n' || c == '\x0d' || c == '\x0b' || c == '\x0c'

/-- Python `s.strip()`: drop leading and trailing whitespace. -/
def pyStrip (s : List Char) : List Char :=
  ((s.dropWhile pyIsSpace).reverse.dropWhile pyIsSpace).reverse

/-- Python `s.split('\n')`: split on each newline, keeping empty pieces. -/
def pySplitNl (s : List Char) : List (List Char) :=
  s.splitOnP (· == '\n')

/-- Python `s.split()` with no argument: split on whitespace runs,
dropping empty pieces. -/
def pySplitWs (s : List Char) : List (List Char) :=
  (s.splitOnP pyIsSpace).filter (fun t => !t.isEmpty)

/-- Python sequence indexing `l[i]`: a negative index counts from the end;
`none` models the `IndexError` raised when the index is out of range. -/
def pyIndex {α : Type} (l : List α) (i : Int) : Option α :=
  if 0 ≤ i then l[i.toNat]?
  else if (-i).toNat ≤ l.length then l[l.length - (-i).toNat]? else none

/-! ## Version (modelled from the spec) -/

/-- Separators of a version string: dot or dash. -/
def isDotDash (c : Char) : Bool := c == '.' || c == '-'

/-- Characters allowed in a version token (numeric or alphanumeric,
underscore included). -/
def isVerChar (c : Char) : Bool := c.isAlphanum || c == '_'

/-- Modelled from the spec: `Version` from `rez.vendor.version.version`
(not in this snapshot) is "an ordered sequence of tokens (numeric or
alphanumeric) ... constructed by parsing a normalized dotted string". -/
structure Version where
  toks : List (List Char)
deriving DecidableEq, Repr

/-- Modelled from the spec: constructing a `Version` parses the string into
dot-or-dash-delimited tokens, each a non-empty run of alphanumeric
characters; an empty string yields the empty version; anything else fails
(`none` models the parse exception). -/
def Version.parse (s : List Char) : Option Version :=
  if s.isEmpty then some ⟨[]⟩
  else
    let ts := s.splitOnP isDotDash
    if ts.all (fun t => !t.isEmpty && t.all isVerChar) then some ⟨ts⟩ else none

/-! ## extract_version -/

/-- A captured subprocess run: text stdout, text stderr, exit code
(what `_run_command` returns). -/
structure CommandResult where
  stdout : List Char
  stderr : List Char
  returncode : Int
deriving DecidableEq, Repr

/-- The exception caught inside `extract_version`'s `try` block. -/
inductive VerParseErr where
  /-- `stdout.split()[word_index]` raised `IndexError` inside the `try`. -/
  | wordIndexOutOfRange : VerParseErr
  /-- `Version(strver)` failed on this normalized string. -/
  | invalidVersion (strver : List Char) : VerParseErr
deriving DecidableEq, Repr

/-- The ways `extract_version` can fail.  `execFailed` and `parseFailed`
model the `RezBindError` raises of the source; `pyIndexError` models the
`IndexError` from the line selection at line 110, which sits outside the
`try`/`except` block and so escapes untyped. -/
inductive ExtractError where
  /-- `RezBindError`: non-zero exit code, carrying exe path, stderr, code. -/
  | execFailed (exepath stderr : List Char) (code : Int) : ExtractError
  /-- `RezBindError`: parse failure, carrying the selected stripped line and
  the underlying error. -/
  | parseFailed (raw : List Char) (err : VerParseErr) : ExtractError
  /-- Untyped Python `IndexError` escaping from the line selection. -/
  | pyIndexError : ExtractError
deriving DecidableEq, Repr

/-- Whether an `ExtractError` corresponds to a typed `RezBindError` raise in
the source (as opposed to an untyped exception escaping). -/
def isRezBindError : ExtractError → Bool
  | .execFailed _ _ _ => true
  | .parseFailed _ _ => true
  | .pyIndexError => false

/-- `strver.replace('.', ' ').replace('-', ' ')`, one character at a time. -/
def dotDashToSpace (c : Char) : Char := if isDotDash c then ' ' else c

/-- `'.'.join(toks)`. -/
def joinDots : List (List Char) → List Char
  | [] => []
  | [t] => t
  | t :: ts => t ++ '.' :: joinDots ts

/-- Embedding of `extract_version` (src lines 88-123), taking the captured
command run as input.  `version_arg` only feeds the subprocess call, so it
does not appear; `exepath` is kept because the execution-failure message
carries it. -/
def extract_version (run : CommandResult) (exepath : List Char)
    (line_index word_index : Int) (version_rank : Nat) :
    Except ExtractError Version :=
  if run.returncode ≠ 0 then
    .error (.execFailed exepath run.stderr run.returncode)
  else
    match pyIndex (pySplitNl (pyStrip run.stdout)) line_index with
    | none => .error .pyIndexError
    | some rawline =>
      let line := pyStrip rawline
      match pyIndex (pySplitWs line) word_index with
      | none => .error (.parseFailed line .wordIndexOutOfRange)
      | some strver =>
        let toks := pySplitWs (strver.map dotDashToSpace)
        let strver2 := joinDots (toks.take version_rank)
        match Version.parse strver2 with
        | none => .error (.parseFailed line (.invalidVersion strver2))
        | some v => .ok v

/-! ## check_version -/

/-- Failure of `check_version`: the `RezBindError` carrying the found
version and the allowed range. -/
inductive CheckError where
  | outOfRange (version : Version) (range : Version → Bool) : CheckError

/-- Modelled from the spec: `VersionRange` (not in this snapshot) is "a
predicate over Version values", so range membership is a boolean function.
Embedding of `check_version` (src lines 52-61): no-op when no range is
supplied, otherwise raises when the version is not in the range. -/
def check_version (version : Version) (range : Option (Version → Bool)) :
    Except CheckError Unit :=
  match range with
  | none => .ok ()
  | some r => if r version then .ok () else .error (.outOfRange version r)

/-! ## find_exe -/

/-- The parts of the host the executable locator touches: path existence,
regular-file test, and the system `PATH` search (`rez.util.which`, which
returns `None` when nothing matches). -/
structure ExeEnv where
  pexists : List Char → Bool
  isfile : List Char → Bool
  which : List Char → Option (List Char)

/-- The ways `find_exe` can fail. -/
inductive FindExeError where
  /-- Untyped `IOError` from `open(filepath)` on a path that does not exist
  (the source opens the missing file on purpose to raise it). -/
  | ioErrorNotFound (filepath : List Char) : FindExeError
  /-- `RezBindError`: the explicit path exists but is not a regular file. -/
  | notAFile (filepath : List Char) : FindExeError
  /-- `RezBindError`: the `PATH` search found nothing for this name. -/
  | couldNotFindExecutable (name : List Char) : FindExeError
deriving DecidableEq, Repr

/-- The `else` branch of `find_exe`: `which(name)`, failing when the search
returns nothing. -/
def whichSearch (env : ExeEnv) (name : List Char) :
    Except FindExeError (List Char) :=
  match env.which name with
  | none => .error (.couldNotFindExecutable name)
  | some p => .ok p

/-- Embedding of `find_exe` (src lines 64-85).  The branch condition is
Python truthiness `if filepath:`, so an explicit empty string falls through
to the `PATH` search exactly like an absent argument. -/
def find_exe (env : ExeEnv) (name : List Char) (filepath : Option (List Char)) :
    Except FindExeError (List Char) :=
  match filepath with
  | some fp =>
    if fp.isEmpty then whichSearch env name
    else if !env.pexists fp then .error (.ioErrorNotFound fp)
    else if !env.isfile fp then .error (.notAFile fp)
    else .ok fp
  | none => whichSearch env name

/-! ## get_app_folders_vers -/

/-- The parts of the filesystem the folder scanner and the install-path
resolver touch: `os.path.normpath`, `os.path.join`, existence, directory
test, directory listing. -/
structure OSEnv where
  normpath : List Char → List Char
  joinp : List Char → List Char → List Char
  pexists : List Char → Bool
  isdir : List Char → Bool
  listdir : List Char → List (List Char)

/-- Failure of `get_app_folders_vers`: the `RezBindError` raised when the
joined, normalized base path does not exist or is not a directory. -/
inductive BindError where
  | basePathMissing (appname base : List Char) : BindError
deriving DecidableEq, Repr

/-- The base path `normpath(join(install_root, appname))`. -/
def appBase (env : OSEnv) (appname install_root : List Char) : List Char :=
  env.normpath (env.joinp install_root appname)

/-- Embedding of `get_app_folders_vers` (src lines 175-226): error when the
base is missing or not a directory; `[base]` alone when the predicate
accepts the base itself; otherwise the normalized immediate subdirectories,
filtered through the predicate when one is supplied. -/
def get_app_folders_vers (env : OSEnv) (appname install_root : List Char)
    (test_folder : Option (List Char → Bool)) :
    Except BindError (List (List Char)) :=
  let base := appBase env appname install_root
  if !env.pexists base || !env.isdir base then
    .error (.basePathMissing appname base)
  else if (match test_folder with | some t => t base | none => false) then
    .ok [base]
  else
    let versdirs :=
      ((env.listdir base).filter (fun f => env.isdir (env.joinp base f))).map
        (fun f => env.normpath (env.joinp base f))
    match test_folder with
    | some t => .ok (versdirs.filter t)
    | none => .ok versdirs

/-! ## get_use_folders_vers_root -/

/-- The configuration attributes `use_folders_vers` mode reads.  `none`
models a missing attribute (`hasattr` false); the flag's truthiness is a
`Bool`, the root's truthiness is non-emptiness. -/
structure BindConfig where
  bind_use_folders_vers : Option Bool
  bind_use_folders_vers_root : Option (List Char)
deriving DecidableEq, Repr

/-- Embedding of `get_use_folders_vers_root` (src lines 244-263).  The outer
condition is `(arg is None or not arg) and (hasattr(...) and
config.bind_use_folders_vers)`; the inner one checks the configured root for
presence, truthiness and non-blankness. -/
def get_use_folders_vers_root (cfg : BindConfig) (arg : Option (List Char)) :
    Option (List Char) :=
  if (arg = none ∨ arg = some []) ∧ cfg.bind_use_folders_vers = some true then
    match cfg.bind_use_folders_vers_root with
    | some r => if r ≠ [] ∧ pyStrip r ≠ [] then some r else some "/opt".data
    | none => some "/opt".data
  else arg

/-- The claim's reading of the precedence, stated in its own order: a
present non-empty explicit argument wins; otherwise with the flag unset the
argument comes back unchanged; otherwise the configured root when present
and non-blank, and the fixed default "/opt" when not. -/
def resolveRootSpec (cfg : BindConfig) (arg : Option (List Char)) :
    Option (List Char) :=
  let fallback :=
    match cfg.bind_use_folders_vers_root with
    | some r => if pyStrip r ≠ [] then some r else some "/opt".data
    | none => some "/opt".data
  match arg with
  | some a =>
    if a ≠ [] then some a
    else if cfg.bind_use_folders_vers = some true then fallback
    else some a
  | none =>
    if cfg.bind_use_folders_vers = some true then fallback
    else none

/-! ## get_install_path -/

/-- The release-related configuration attributes `get_install_path` reads.
`none` models a missing attribute (`hasattr` false). -/
structure ReleaseConfig where
  release_packages_path : List Char
  release_packages_root : Option (List Char)
  release_packages_types : Option (List (List Char))
deriving DecidableEq, Repr

/-- Embedding of `get_install_path` (src lines 265-286), mirroring the
source's nested conditions. -/
def get_install_path (env : OSEnv) (cfg : ReleaseConfig)
    (install_path : List Char) (pkgtype : Option (List Char)) : List Char :=
  if install_path = cfg.release_packages_path then
    match pkgtype with
    | none => install_path
    | some pt =>
      match cfg.release_packages_root with
      | none => install_path
      | some root =>
        if root.isEmpty then install_path
        else
          match cfg.release_packages_types with
          | none => install_path
          | some tys =>
            if tys.length > 0 then
              if pt ∈ tys then env.normpath (env.joinp root pt)
              else install_path
            else install_path
  else install_path

/-- The claim's reading of the install-path policy: a no-op whenever the
requested path differs from the configured release-packages path; the
rewrite `normpath(join(root, pkgtype))` exactly when the path matches, a
package type is given, a truthy release root is set, a non-empty
allowed-types list is configured and the type is in it; a no-op in every
other branch. -/
def resolveInstallPathSpec (env : OSEnv) (cfg : ReleaseConfig)
    (install_path : List Char) (pkgtype : Option (List Char)) : List Char :=
  if install_path ≠ cfg.release_packages_path then install_path
  else
    match pkgtype, cfg.release_packages_root, cfg.release_packages_types with
    | some pt, some root, some tys =>
      if root ≠ [] ∧ tys ≠ [] ∧ pt ∈ tys then env.normpath (env.joinp root pt)
      else install_path
    | _, _, _ => install_path

/-! ## Lemmas about splitting -/

/-- Mapping a character translation through a split: when `f` turns exactly
the `q`-separators into `p`-separators and fixes every other character
(which must not be a `p`-separator), the two splits agree. -/
theorem splitOnP_map_congr (p q : Char → Bool) (f : Char → Char) :
    ∀ l : List Char,
      (∀ c ∈ l, (q c = true → p (f c) = true) ∧
        (q c = false → f c = c ∧ p c = false)) →
      (l.map f).splitOnP p = l.splitOnP q
  | [], _ => by simp
  | c :: cs, h => by
    have ih := splitOnP_map_congr p q f cs (fun x hx => h x (List.mem_cons_of_mem _ hx))
    have hc := h c (List.mem_cons_self _ _)
    by_cases hq : q c = true
    · have hp := hc.1 hq
      simp only [List.map_cons, List.splitOnP_cons, hp, hq, if_true, ih]
    · obtain ⟨hfix, hpc⟩ := hc.2 (by simpa using hq)
      simp only [List.map_cons, List.splitOnP_cons, hfix, hpc, hq,
        Bool.false_eq_true, if_false, ih]

/-- Every character of a list either is a separator or lives in one of the
split's tokens. -/
theorem sep_or_mem_token_of_mem (p : Char → Bool) :
    ∀ l : List Char, ∀ c ∈ l, p c = true ∨ ∃ t ∈ l.splitOnP p, c ∈ t
  | x :: xs, c, hc => by
    rcases List.mem_cons.mp hc with rfl | hmem
    · by_cases hp : p c = true
      · exact Or.inl hp
      · right
        rcases hsp : xs.splitOnP p with _ | ⟨hd, tl⟩
        · exact absurd hsp (List.splitOnP_ne_nil _ _)
        · refine ⟨c :: hd, ?_, List.mem_cons_self _ _⟩
          simp [List.splitOnP_cons, hp, hsp]
    · rcases sep_or_mem_token_of_mem p xs c hmem with hp | ⟨t, ht, hct⟩
      · exact Or.inl hp
      · by_cases hpx : p x = true
        · exact Or.inr ⟨t, by simp [List.splitOnP_cons, hpx, ht], hct⟩
        · rcases hsp : xs.splitOnP p with _ | ⟨hd, tl⟩
          · exact absurd hsp (List.splitOnP_ne_nil _ _)
          · rw [hsp] at ht
            rcases List.mem_cons.mp ht with rfl | htl
            · exact Or.inr ⟨x :: t, by simp [List.splitOnP_cons, hpx, hsp],
                List.mem_cons_of_mem _ hct⟩
            · exact Or.inr ⟨t, by simp [List.splitOnP_cons, hpx, hsp,
                List.mem_cons_of_mem _ htl], hct⟩
  | [], c, hc => absurd hc (List.not_mem_nil c)

/-- Splitting a dot-join recovers the tokens, when no token holds a
separator character. -/
theorem splitOnP_joinDots (p : Char → Bool) (hdot : p '.' = true) :
    ∀ ts : List (List Char), ts ≠ [] →
      (∀ t ∈ ts, ∀ c ∈ t, p c = false) →
      (joinDots ts).splitOnP p = ts
  | [], hne, _ => absurd rfl hne
  | [t], _, h => by
    have : ∀ c ∈ t, ¬p c := fun c hc => by simp [h t (List.mem_singleton_self t) c hc]
    simpa [joinDots] using List.splitOnP_eq_single p t this
  | t :: t' :: ts, _, h => by
    have ih := splitOnP_joinDots p hdot (t' :: ts) (by simp)
      (fun u hu => h u (List.mem_cons_of_mem _ hu))
    have hfree : ∀ c ∈ t, ¬p c := fun c hc => by
      simp [h t (List.mem_cons_self _ _) c hc]
    show (t ++ '.' :: joinDots (t' :: ts)).splitOnP p = t :: t' :: ts
    rw [List.splitOnP_first p t hfree '.' hdot, ih]

/-- A dot-join of non-empty tokens is non-empty. -/
theorem joinDots_ne_nil :
    ∀ ts : List (List Char), ts ≠ [] → (∀ t ∈ ts, t ≠ []) → joinDots ts ≠ []
  | [], hne, _ => absurd rfl hne
  | [t], _, h => by simpa [joinDots] using h t (List.mem_singleton_self t)
  | t :: t' :: ts, _, _ => by simp [joinDots]

/-! ## Character class lemmas -/

theorem pyIsSpace_eq_false_of_isDigit (c : Char) (h : c.isDigit = true) :
    pyIsSpace c = false := by
  by_contra hc
  have hsp : pyIsSpace c = true := by simpa using hc
  simp only [pyIsSpace, Bool.or_eq_true, beq_iff_eq] at hsp
  rcases hsp with ((((h1 | h1) | h1) | h1) | h1) | h1 <;> subst h1 <;>
    revert h <;> decide

theorem isDotDash_eq_false_of_isDigit (c : Char) (h : c.isDigit = true) :
    isDotDash c = false := by
  by_contra hc
  have hdd : isDotDash c = true := by simpa using hc
  simp only [isDotDash, Bool.or_eq_true, beq_iff_eq] at hdd
  rcases hdd with h1 | h1 <;> subst h1 <;> revert h <;> decide

theorem isVerChar_of_isDigit (c : Char) (h : c.isDigit = true) :
    isVerChar c = true := by
  simp [isVerChar, Char.isAlphanum, h]

/-- A word of the well-formed shape `<num>.<num>[.<num>...]`: at least two
dot-or-dash-delimited tokens, each a non-empty run of digits. -/
def wellFormedVer (w : List Char) : Bool :=
  decide (2 ≤ (w.splitOnP isDotDash).length) &&
    (w.splitOnP isDotDash).all (fun t => !t.isEmpty && t.all Char.isDigit)

/-! ## Claims about extract_version -/

/-- C1: for every captured stdout whose selected line (at `line_index`,
default 0, stripped) has a selected word (at `word_index`, default last) of
the well-formed shape `<num>.<num>[.<num>...]`, `extract_version` with
default parameters returns a `Version` whose token sequence equals the first
`version_rank` (default 3) dot-or-dash-delimited tokens of that word; and in
particular, for stdout line 0 = "Tool version 2.10.3-beta.7" with default
indices and rank the extracted `Version` tokens are ["2", "10", "3"]. -/
theorem extract_version_default_wellformed
    (stdout stderr exepath rawline w : List Char)
    (hline : pyIndex (pySplitNl (pyStrip stdout)) 0 = some rawline)
    (hword : pyIndex (pySplitWs (pyStrip rawline)) (-1) = some w)
    (hwf : wellFormedVer w = true) :
    extract_version ⟨stdout, stderr, 0⟩ exepath 0 (-1) 3 =
      .ok ⟨(w.splitOnP isDotDash).take 3⟩ ∧
    extract_version ⟨"Tool version 2.10.3-beta.7".data, [], 0⟩ "tool".data 0 (-1) 3 =
      .ok ⟨[['2'], ['1', '0'], ['3']]⟩ := by
  refine ⟨?_, by rfl⟩
  unfold wellFormedVer at hwf
  rw [Bool.and_eq_true, decide_eq_true_eq, List.all_eq_true] at hwf
  obtain ⟨hlen, htoks⟩ := hwf
  have htoks' : ∀ t ∈ w.splitOnP isDotDash, t ≠ [] ∧ ∀ c ∈ t, c.isDigit = true := by
    intro t ht
    have h2 := htoks t ht
    rw [Bool.and_eq_true, List.all_eq_true] at h2
    refine ⟨?_, h2.2⟩
    simpa [List.isEmpty_iff] using h2.1
  have hchar : ∀ c ∈ w, isDotDash c = true ∨ c.isDigit = true := by
    intro c hc
    rcases sep_or_mem_token_of_mem isDotDash w c hc with hp | ⟨t, ht, hct⟩
    · exact Or.inl hp
    · exact Or.inr ((htoks' t ht).2 c hct)
  have hmap : (w.map dotDashToSpace).splitOnP pyIsSpace = w.splitOnP isDotDash := by
    apply splitOnP_map_congr
    intro c hc
    constructor
    · intro hdd
      simp only [dotDashToSpace, hdd, if_true]
      decide
    · intro hdd
      rcases hchar c hc with h1 | h1
      · rw [h1] at hdd; exact absurd hdd (by simp)
      · exact ⟨by simp [dotDashToSpace, hdd], pyIsSpace_eq_false_of_isDigit c h1⟩
  have hWs : pySplitWs (w.map dotDashToSpace) = w.splitOnP isDotDash := by
    unfold pySplitWs
    rw [hmap]
    apply List.filter_eq_self.mpr
    intro t ht
    simpa [List.isEmpty_iff] using (htoks' t ht).1
  set ts := w.splitOnP isDotDash with hts
  have hts3sub : ∀ t ∈ ts.take 3, t ≠ [] ∧ ∀ c ∈ t, c.isDigit = true :=
    fun t ht => htoks' t (List.take_subset 3 ts ht)
  have htsne : ts ≠ [] := by
    intro h; rw [h] at hlen; simp at hlen
  have hts3ne : ts.take 3 ≠ [] := by
    intro h
    rcases (List.take_eq_nil_iff).mp h with h3 | h3
    · exact absurd h3 (by decide)
    · exact htsne h3
  have hjoin_ne : joinDots (ts.take 3) ≠ [] :=
    joinDots_ne_nil _ hts3ne (fun t ht => (hts3sub t ht).1)
  have hsplitj : (joinDots (ts.take 3)).splitOnP isDotDash = ts.take 3 :=
    splitOnP_joinDots isDotDash (by decide) _ hts3ne
      (fun t ht c hc => isDotDash_eq_false_of_isDigit c ((hts3sub t ht).2 c hc))
  have hparse : Version.parse (joinDots (ts.take 3)) = some ⟨ts.take 3⟩ := by
    unfold Version.parse
    rw [if_neg (by simpa [List.isEmpty_iff] using hjoin_ne)]
    simp only [hsplitj]
    rw [if_pos]
    apply List.all_eq_true.mpr
    intro t ht
    rw [Bool.and_eq_true]
    refine ⟨by simpa [List.isEmpty_iff] using (hts3sub t ht).1,
      List.all_eq_true.mpr (fun c hc => isVerChar_of_isDigit c ((hts3sub t ht).2 c hc))⟩
  unfold extract_version
  rw [if_neg (by simp)]
  rw [hline]
  simp only [hword, hWs, hparse]

/-- Witness for C1 at the concrete stdout "v 1.2.3". -/
theorem extract_version_default_wellformed_witness :
    extract_version ⟨"v 1.2.3".data, [], 0⟩ "exe".data 0 (-1) 3 =
      .ok ⟨("1.2.3".data.splitOnP isDotDash).take 3⟩ ∧
    extract_version ⟨"Tool version 2.10.3-beta.7".data, [], 0⟩ "tool".data 0
      (-1) 3 = .ok ⟨[['2'], ['1', '0'], ['3']]⟩ :=
  extract_version_default_wellformed "v 1.2.3".data [] "exe".data
    "v 1.2.3".data "1.2.3".data (by rfl) (by rfl) (by rfl)

/-- C2 (amended): with a successful (zero-exit) command run, a failing word
index or an unparsable token sequence fails with the typed
"version parse failed" `RezBindError` carrying the selected raw output line
and the underlying parse error; but a `line_index` with no corresponding
output line escapes as an untyped Python `IndexError` (the line selection at
src line 110 sits outside the `try`/`except`). -/
theorem extract_version_parse_failures_typed (run : CommandResult)
    (exepath : List Char) (li wi : Int) (rank : Nat)
    (h0 : run.returncode = 0) :
    ∀ e, extract_version run exepath li wi rank = .error e →
      (e = .pyIndexError ∧ pyIndex (pySplitNl (pyStrip run.stdout)) li = none) ∨
      (isRezBindError e = true ∧
        ∃ rawline, pyIndex (pySplitNl (pyStrip run.stdout)) li = some rawline ∧
          ∃ perr, e = .parseFailed (pyStrip rawline) perr) := by
  intro e he
  rcases hL : pyIndex (pySplitNl (pyStrip run.stdout)) li with _ | rawline
  · have hv : extract_version run exepath li wi rank = .error .pyIndexError := by
      unfold extract_version
      rw [if_neg (by simp [h0]), hL]
    rw [hv] at he
    exact Or.inl ⟨(Except.error.inj he).symm, rfl⟩
  · rcases hW : pyIndex (pySplitWs (pyStrip rawline)) wi with _ | strver
    · have hv : extract_version run exepath li wi rank =
          .error (.parseFailed (pyStrip rawline) .wordIndexOutOfRange) := by
        unfold extract_version
        rw [if_neg (by simp [h0]), hL]
        simp only [hW]
      rw [hv] at he
      refine Or.inr ⟨?_, rawline, rfl, .wordIndexOutOfRange, (Except.error.inj he).symm⟩
      rw [← Except.error.inj he]
      rfl
    · rcases hP : Version.parse
          (joinDots ((pySplitWs (strver.map dotDashToSpace)).take rank)) with _ | v
      · have hv : extract_version run exepath li wi rank =
            .error (.parseFailed (pyStrip rawline)
              (.invalidVersion (joinDots ((pySplitWs (strver.map dotDashToSpace)).take rank)))) := by
          unfold extract_version
          rw [if_neg (by simp [h0]), hL]
          simp only [hW, hP]
        rw [hv] at he
        refine Or.inr ⟨?_, rawline, rfl, _, (Except.error.inj he).symm⟩
        rw [← Except.error.inj he]
        rfl
      · have hv : extract_version run exepath li wi rank = .ok v := by
          unfold extract_version
          rw [if_neg (by simp [h0]), hL]
          simp only [hW, hP]
        rw [hv] at he
        exact absurd he (by simp)

/-- Counterexample to C2 as stated: with a zero-exit run of one output line
and `line_index = 1`, the parse chain fails with the untyped `IndexError`,
not with a typed `RezBindError`. -/
theorem extract_version_line_index_untyped_cex :
    extract_version ⟨['x'], [], 0⟩ ['e'] 1 (-1) 3 = .error .pyIndexError ∧
    isRezBindError .pyIndexError = false :=
  ⟨rfl, rfl⟩

/-- Witness for C2 (amended) at stdout "" (no words, so the word index
fails inside the `try` block). -/
theorem extract_version_parse_failures_typed_witness :
    (ExtractError.parseFailed [] .wordIndexOutOfRange = .pyIndexError ∧
      pyIndex (pySplitNl (pyStrip ([] : List Char))) 0 = none) ∨
    (isRezBindError (.parseFailed [] .wordIndexOutOfRange) = true ∧
      ∃ rawline, pyIndex (pySplitNl (pyStrip ([] : List Char))) 0 = some rawline ∧
        ∃ perr, ExtractError.parseFailed [] .wordIndexOutOfRange =
          .parseFailed (pyStrip rawline) perr) :=
  extract_version_parse_failures_typed ⟨[], [], 0⟩ [] 0 (-1) 3 rfl
    (.parseFailed [] .wordIndexOutOfRange) (by rfl)

/-- C7: for every run with a non-zero exit code, `extract_version` fails
with the "execution failed" condition carrying the exit code and the
captured stderr, independent of the captured stdout (no version parsing is
attempted). -/
theorem extract_version_nonzero_exit (run : CommandResult) (exepath : List Char)
    (li wi : Int) (rank : Nat) (h : run.returncode ≠ 0) :
    extract_version run exepath li wi rank =
      .error (.execFailed exepath run.stderr run.returncode) ∧
    ∀ s, extract_version ⟨s, run.stderr, run.returncode⟩ exepath li wi rank =
      .error (.execFailed exepath run.stderr run.returncode) := by
  constructor
  · unfold extract_version
    rw [if_pos h]
  · intro s
    unfold extract_version
    rw [if_pos h]

/-- Witness for C7: the spec's example, non-zero exit with stderr
"not found". -/
theorem extract_version_nonzero_exit_witness :
    (extract_version ⟨[], "not found".data, 1⟩ "tool".data 0 (-1) 3 =
      .error (.execFailed "tool".data "not found".data 1) ∧
    ∀ s, extract_version ⟨s, "not found".data, 1⟩ "tool".data 0 (-1) 3 =
      .error (.execFailed "tool".data "not found".data 1)) :=
  extract_version_nonzero_exit ⟨[], "not found".data, 1⟩ "tool".data 0 (-1) 3
    (by decide)

/-! ## Claims about check_version and find_exe -/

/-- C9: `check_version` is a no-op (returns normally) for every version when
the range argument is absent, and when a range is supplied it raises the
"out of range" condition carrying both the found version and the allowed
range exactly when the version is not a member of the range. -/
theorem check_version_range (v : Version) :
    check_version v none = .ok () ∧
    ∀ r : Version → Bool,
      check_version v (some r) =
        (if r v then .ok () else .error (.outOfRange v r)) :=
  ⟨rfl, fun _ => rfl⟩

/-- C8: for every explicitly given non-empty executable path, `find_exe`
fails with the "not found" condition (the `IOError` the source raises by
opening the missing path) when the path does not exist, fails with the
"not a file" `RezBindError` when it exists but is not a regular file, and
otherwise returns the given path unchanged. -/
theorem find_exe_explicit_path (env : ExeEnv) (name fp : List Char)
    (hfp : fp ≠ []) :
    (env.pexists fp = false →
      find_exe env name (some fp) = .error (.ioErrorNotFound fp)) ∧
    (env.pexists fp = true → env.isfile fp = false →
      find_exe env name (some fp) = .error (.notAFile fp)) ∧
    (env.pexists fp = true → env.isfile fp = true →
      find_exe env name (some fp) = .ok fp) := by
  have hne : fp.isEmpty = false := by simpa [List.isEmpty_iff] using hfp
  exact ⟨fun h1 => by simp [find_exe, hne, h1],
         fun h1 h2 => by simp [find_exe, hne, h1, h2],
         fun h1 h2 => by simp [find_exe, hne, h1, h2]⟩

/-- A concrete host for the find_exe witness: one regular file
/usr/bin/tool inside the directory /usr/bin, and an empty PATH search. -/
def sampleExeEnv : ExeEnv where
  pexists := fun p => p == "/usr/bin/tool".data || p == "/usr/bin".data
  isfile := fun p => p == "/usr/bin/tool".data
  which := fun _ => none

/-- Witness for C8 on the concrete host. -/
theorem find_exe_explicit_path_witness :
    (find_exe sampleExeEnv "tool".data (some "/missing".data) =
      .error (.ioErrorNotFound "/missing".data)) ∧
    (find_exe sampleExeEnv "tool".data (some "/usr/bin".data) =
      .error (.notAFile "/usr/bin".data)) ∧
    (find_exe sampleExeEnv "tool".data (some "/usr/bin/tool".data) =
      .ok "/usr/bin/tool".data) :=
  ⟨(find_exe_explicit_path sampleExeEnv "tool".data "/missing".data
      (by decide)).1 (by decide),
   (find_exe_explicit_path sampleExeEnv "tool".data "/usr/bin".data
      (by decide)).2.1 (by decide) (by decide),
   (find_exe_explicit_path sampleExeEnv "tool".data "/usr/bin/tool".data
      (by decide)).2.2 (by decide) (by decide)⟩

/-- A host whose `PATH` search finds /usr/bin/tool. -/
def foundExeEnv : ExeEnv where
  pexists := fun p => p == "/usr/bin/tool".data
  isfile := fun p => p == "/usr/bin/tool".data
  which := fun _ => some "/usr/bin/tool".data

/-- Counterexample to C8 over all explicitly given paths: the explicitly
given empty path does not exist on this host, yet `find_exe` does not fail
with a "not found" condition — the truthiness test `if filepath:` routes it
to the `PATH` search, which succeeds. -/
theorem find_exe_empty_path_cex :
    foundExeEnv.pexists [] = false ∧
    find_exe foundExeEnv "tool".data (some []) = .ok "/usr/bin/tool".data :=
  ⟨rfl, rfl⟩

/-- C10: calling `find_exe` with an explicit empty-string filepath skips
the explicit-path branch (the condition tests truthiness): the empty path is
never validated against the filesystem, the call equals the `PATH`-search
call, and it fails with "could not find executable" when that search finds
nothing. -/
theorem find_exe_empty_filepath (env : ExeEnv) (name : List Char) :
    find_exe env name (some []) = whichSearch env name ∧
    find_exe env name (some []) = find_exe env name none ∧
    (env.which name = none →
      find_exe env name (some []) = .error (.couldNotFindExecutable name)) := by
  refine ⟨rfl, rfl, fun h => ?_⟩
  simp [find_exe, whichSearch, h]

/-! ## Claims about the folder-versions mode and paths -/

/-- C3: `get_use_folders_vers_root` obeys the stated precedence: a present
non-empty explicit argument is returned unchanged regardless of
configuration; an absent or empty argument with the flag unset is returned
unchanged; an absent or empty argument with the flag set yields the
configured root when present and non-blank, and the fixed default "/opt"
otherwise (root absent, or blank after stripping). -/
theorem get_use_folders_vers_root_precedence (cfg : BindConfig)
    (arg : Option (List Char)) :
    (∀ a, arg = some a → a ≠ [] → get_use_folders_vers_root cfg arg = some a) ∧
    ((arg = none ∨ arg = some []) → cfg.bind_use_folders_vers ≠ some true →
      get_use_folders_vers_root cfg arg = arg) ∧
    ((arg = none ∨ arg = some []) → cfg.bind_use_folders_vers = some true →
      (∀ r, cfg.bind_use_folders_vers_root = some r → pyStrip r ≠ [] →
        get_use_folders_vers_root cfg arg = some r) ∧
      (∀ r, cfg.bind_use_folders_vers_root = some r → pyStrip r = [] →
        get_use_folders_vers_root cfg arg = some "/opt".data) ∧
      (cfg.bind_use_folders_vers_root = none →
        get_use_folders_vers_root cfg arg = some "/opt".data)) := by
  refine ⟨?_, ?_, ?_⟩
  · intro a ha hne
    subst ha
    unfold get_use_folders_vers_root
    rw [if_neg]
    rintro ⟨h1 | h1, -⟩
    · exact Option.noConfusion h1
    · exact hne (Option.some.inj h1)
  · intro hao hflag
    unfold get_use_folders_vers_root
    rw [if_neg (fun h => hflag h.2)]
  · intro hao hflag
    refine ⟨?_, ?_, ?_⟩
    · intro r hr hs
      unfold get_use_folders_vers_root
      rw [if_pos ⟨hao, hflag⟩, hr]
      dsimp only
      rw [if_pos ⟨fun h => hs (by rw [h]; rfl), hs⟩]
    · intro r hr hs
      unfold get_use_folders_vers_root
      rw [if_pos ⟨hao, hflag⟩, hr]
      dsimp only
      rw [if_neg (fun h => h.2 hs)]
    · intro hr
      unfold get_use_folders_vers_root
      rw [if_pos ⟨hao, hflag⟩, hr]

/-- C6: `get_install_path` returns `install_path` unchanged whenever it
differs from the configured release-packages path (any package type, any
configuration); when it matches and a package type is given and a truthy
release root is set and a non-empty allowed-types list is configured and
the type is a member, it returns `normpath(join(root, pkgtype))`; and in
every other branch it returns `install_path` unchanged. -/
theorem get_install_path_policy (env : OSEnv) (cfg : ReleaseConfig)
    (install_path : List Char) (pkgtype : Option (List Char)) :
    (install_path ≠ cfg.release_packages_path →
      get_install_path env cfg install_path pkgtype = install_path) ∧
    (∀ pt root tys, install_path = cfg.release_packages_path →
      pkgtype = some pt → cfg.release_packages_root = some root → root ≠ [] →
      cfg.release_packages_types = some tys → tys ≠ [] → pt ∈ tys →
      get_install_path env cfg install_path pkgtype =
        env.normpath (env.joinp root pt)) ∧
    (get_install_path env cfg install_path pkgtype = install_path ∨
      (install_path = cfg.release_packages_path ∧
        ∃ pt root tys, pkgtype = some pt ∧
          cfg.release_packages_root = some root ∧ root ≠ [] ∧
          cfg.release_packages_types = some tys ∧ tys ≠ [] ∧ pt ∈ tys ∧
          get_install_path env cfg install_path pkgtype =
            env.normpath (env.joinp root pt))) := by
  refine ⟨?_, ?_, ?_⟩
  · intro hp
    unfold get_install_path
    rw [if_neg hp]
  · intro pt root tys hp hpt hroot hrne htys htne hmem
    unfold get_install_path
    rw [if_pos hp, hpt, hroot, htys]
    dsimp only
    rw [if_neg (by simpa [List.isEmpty_iff] using hrne),
      if_pos (by simpa [List.length_pos] using htne), if_pos hmem]
  · by_cases hp : install_path = cfg.release_packages_path
    · rcases hpt : pkgtype with _ | pt
      · left
        unfold get_install_path
        rw [if_pos hp]
      · rcases hroot : cfg.release_packages_root with _ | root
        · left
          unfold get_install_path
          rw [if_pos hp, hroot]
        · by_cases hrne : root = []
          · left
            subst hrne
            unfold get_install_path
            rw [if_pos hp, hroot]
            dsimp only
            rw [if_pos (show ([] : List Char).isEmpty = true from rfl)]
          · rcases htys : cfg.release_packages_types with _ | tys
            · left
              unfold get_install_path
              rw [if_pos hp, hroot, htys]
              dsimp only
              rw [if_neg (by simpa [List.isEmpty_iff] using hrne)]
            · by_cases htne : tys = []
              · left
                subst htne
                unfold get_install_path
                rw [if_pos hp, hroot, htys]
                dsimp only
                rw [if_neg (by simpa [List.isEmpty_iff] using hrne),
                  if_neg (by simp)]
              · by_cases hmem : pt ∈ tys
                · right
                  refine ⟨hp, pt, root, tys, rfl, rfl, hrne, rfl, htne,
                    hmem, ?_⟩
                  unfold get_install_path
                  rw [if_pos hp, hroot, htys]
                  dsimp only
                  rw [if_neg (by simpa [List.isEmpty_iff] using hrne),
                    if_pos (by simpa [List.length_pos] using htne), if_pos hmem]
                · left
                  unfold get_install_path
                  rw [if_pos hp, hroot, htys]
                  dsimp only
                  rw [if_neg (by simpa [List.isEmpty_iff] using hrne),
                    if_pos (by simpa [List.length_pos] using htne), if_neg hmem]
    · left
      unfold get_install_path
      rw [if_neg hp]

/-! ## Claims about get_app_folders_vers -/

/-- C4: `get_app_folders_vers` without a predicate fails with the
"base path missing" condition exactly when the joined, normalized base path
does not exist or is not a directory; and any returned list holds exactly
the immediate subdirectory entries of the base, each joined onto the base
and normalized, with no file entries. -/
theorem get_app_folders_vers_no_predicate (env : OSEnv)
    (appname install_root : List Char) :
    (get_app_folders_vers env appname install_root none =
        .error (.basePathMissing appname (appBase env appname install_root)) ↔
      (env.pexists (appBase env appname install_root) = false ∨
        env.isdir (appBase env appname install_root) = false)) ∧
    (∀ l, get_app_folders_vers env appname install_root none = .ok l →
      ∀ p, p ∈ l ↔
        ∃ nm ∈ env.listdir (appBase env appname install_root),
          env.isdir (env.joinp (appBase env appname install_root) nm) = true ∧
          p = env.normpath (env.joinp (appBase env appname install_root) nm)) := by
  by_cases hex : env.pexists (appBase env appname install_root) = true
  · by_cases hdir : env.isdir (appBase env appname install_root) = true
    · have hv : get_app_folders_vers env appname install_root none =
          .ok (((env.listdir (appBase env appname install_root)).filter
              (fun f => env.isdir
                (env.joinp (appBase env appname install_root) f))).map
            (fun f => env.normpath
              (env.joinp (appBase env appname install_root) f))) := by
        simp only [get_app_folders_vers]
        rw [if_neg (by simp [hex, hdir])]
        rfl
      constructor
      · rw [hv]
        simp [hex, hdir]
      · intro l hl
        rw [hv] at hl
        obtain rfl := (Except.ok.inj hl).symm
        intro p
        simp only [List.mem_map, List.mem_filter]
        constructor
        · rintro ⟨nm, ⟨hnm, hd⟩, rfl⟩
          exact ⟨nm, hnm, hd, rfl⟩
        · rintro ⟨nm, hnm, hd, rfl⟩
          exact ⟨nm, ⟨hnm, hd⟩, rfl⟩
    · have hv : get_app_folders_vers env appname install_root none =
          .error (.basePathMissing appname (appBase env appname install_root)) := by
        simp only [get_app_folders_vers]
        rw [if_pos (by simp [Bool.not_eq_true] at hdir ⊢; simp [hdir])]
      constructor
      · rw [hv]
        simp [Bool.not_eq_true] at hdir
        simp [hdir]
      · intro l hl
        rw [hv] at hl
        exact absurd hl (by simp)
  · have hv : get_app_folders_vers env appname install_root none =
        .error (.basePathMissing appname (appBase env appname install_root)) := by
      simp only [get_app_folders_vers]
      rw [if_pos (by simp [Bool.not_eq_true] at hex ⊢; simp [hex])]
    constructor
    · rw [hv]
      simp [Bool.not_eq_true] at hex
      simp [hex]
    · intro l hl
      rw [hv] at hl
      exact absurd hl (by simp)

/-- C5: for every predicate and existing base directory,
`get_app_folders_vers` returns `[base]` alone (no subfolder scan) when the
predicate accepts the base, and otherwise returns exactly those entries of
the no-predicate result for which the predicate holds: a subset of it. -/
theorem get_app_folders_vers_predicate (env : OSEnv)
    (appname install_root : List Char) (t : List Char → Bool)
    (hex : env.pexists (appBase env appname install_root) = true)
    (hdir : env.isdir (appBase env appname install_root) = true) :
    (t (appBase env appname install_root) = true →
      get_app_folders_vers env appname install_root (some t) =
        .ok [appBase env appname install_root]) ∧
    (t (appBase env appname install_root) = false →
      ∀ l0, get_app_folders_vers env appname install_root none = .ok l0 →
        get_app_folders_vers env appname install_root (some t) =
          .ok (l0.filter t) ∧
        (∀ p, p ∈ l0.filter t ↔ p ∈ l0 ∧ t p = true) ∧
        l0.filter t ⊆ l0) := by
  constructor
  · intro ht
    simp only [get_app_folders_vers]
    rw [if_neg (by simp [hex, hdir]), if_pos ht]
  · intro ht l0 hl0
    have hv0 : get_app_folders_vers env appname install_root none =
        .ok (((env.listdir (appBase env appname install_root)).filter
            (fun f => env.isdir
              (env.joinp (appBase env appname install_root) f))).map
          (fun f => env.normpath
            (env.joinp (appBase env appname install_root) f))) := by
      simp only [get_app_folders_vers]
      rw [if_neg (by simp [hex, hdir])]
      rfl
    rw [hv0] at hl0
    obtain rfl := (Except.ok.inj hl0).symm
    refine ⟨?_, fun p => by simp [List.mem_filter], fun _ hp => List.mem_of_mem_filter hp⟩
    simp only [get_app_folders_vers]
    rw [if_neg (by simp [hex, hdir]), if_neg (by simp [ht])]

/-- A concrete host for the folder-scan witness: /opt/houdini holding two
hfs version directories and one plain file, as in the spec's example. -/
def sampleOSEnv : OSEnv where
  normpath := fun p => p
  joinp := fun a b => a ++ '/' :: b
  pexists := fun p =>
    p == "/opt/houdini".data || p == "/opt/houdini/hfs17.5.626".data ||
      p == "/opt/houdini/hfs18.0.312".data ||
      p == "/opt/houdini/readme.txt".data
  isdir := fun p =>
    p == "/opt/houdini".data || p == "/opt/houdini/hfs17.5.626".data ||
      p == "/opt/houdini/hfs18.0.312".data
  listdir := fun p =>
    if p == "/opt/houdini".data then
      ["hfs17.5.626".data, "hfs18.0.312".data, "readme.txt".data]
    else []

/-- The spec example's predicate: paths under /opt/houdini whose folder
name starts with hfs. -/
def hfsTest (p : List Char) : Bool :=
  "/opt/houdini/hfs".data.isPrefixOf p

/-- Witness for C5 on the concrete host: both hfs paths come back. -/
theorem get_app_folders_vers_predicate_witness :
    get_app_folders_vers sampleOSEnv "houdini".data "/opt".data
      (some hfsTest) =
      .ok (["/opt/houdini/hfs17.5.626".data,
        "/opt/houdini/hfs18.0.312".data].filter hfsTest) ∧
    (∀ p, p ∈ ["/opt/houdini/hfs17.5.626".data,
        "/opt/houdini/hfs18.0.312".data].filter hfsTest ↔
      p ∈ ["/opt/houdini/hfs17.5.626".data,
        "/opt/houdini/hfs18.0.312".data] ∧ hfsTest p = true) ∧
    ["/opt/houdini/hfs17.5.626".data,
      "/opt/houdini/hfs18.0.312".data].filter hfsTest ⊆
      ["/opt/houdini/hfs17.5.626".data, "/opt/houdini/hfs18.0.312".data] :=
  (get_app_folders_vers_predicate sampleOSEnv "houdini".data "/opt".data
    hfsTest (by decide) (by decide)).2 (by decide)
    ["/opt/houdini/hfs17.5.626".data, "/opt/houdini/hfs18.0.312".data]
    (by rfl)
